import Mathlib

/-!
Shallow embedding of the one-missing-word mnemonic brute-force script
(`src/index.js`).  External libraries (bip39, bip32, bitcoinjs-lib payments,
the blockchain.info HTTP endpoint) are modelled as an environment of
function parameters; the script's own control flow, error handling and
data plumbing are translated line by line.
-/

namespace BruteForce

/-- A bitcoinjs-lib payment object; the script only reads its `address`. -/
structure Payment where
  address : String
deriving DecidableEq

/-- A JSON value as far as the balance client inspects it: either a number
(the `typeof ... === 'number'` test succeeds) or anything else. -/
inductive JsonVal where
  | num (q : ℚ)
  | other
deriving DecidableEq

/-- The per-address entry of a blockchain.info balance response; the
`final_balance` field may be absent. -/
structure AddrEntry where
  final_balance : Option JsonVal
deriving DecidableEq

/-- Outcome of one HTTP request in `getBalanceSatoshis`: either a parsed
response body (an object keyed by address) or a thrown error (network
failure or timeout). -/
inductive OracleResponse where
  | ok (data : List (String × AddrEntry))
  | err (msg : String)
deriving DecidableEq

/-- Which log line `getBalanceSatoshis` produces for a request. -/
inductive BalLog where
  | gotBalance (q : ℚ)
  | noField
  | netErr (msg : String)
deriving DecidableEq

/-- Errors thrown inside `derivePubkeyAndAddress`: a failure of
`root.derivePath` or the `default:` throw for an unknown address type. -/
inductive DeriveErr where
  | derivation (msg : String)
  | unsupported (tag : String)
deriving DecidableEq

/-- The external collaborators of the script, as opaque functions:
bip39 validation and seed generation, bip32 root/child derivation,
bitcoinjs payments, and the balance HTTP endpoint. -/
structure Env (Seed Root Child Pubkey : Type) where
  validateMnemonic : String → Bool
  mnemonicToSeedSync : String → Except String Seed
  fromSeed : Seed → Except String Root
  derivePath : Root → String → Except String Child
  publicKey : Child → Pubkey
  p2pkh : Pubkey → Payment
  p2wpkh : Pubkey → Payment
  p2sh : Payment → Payment
  oracle : String → OracleResponse

variable {Seed Root Child Pubkey : Type}

/-- `getBalanceSatoshis` (src/index.js:109-128): queries the oracle for one
address, returns the `final_balance` number when the response carries one
for that address, `none` otherwise; never throws past its boundary.  The
second component records which log line the call produced. -/
def getBalanceSatoshis (oracle : String → OracleResponse) (address : String) :
    Option ℚ × BalLog :=
  match oracle address with
  | .err msg => (none, .netErr msg)
  | .ok data =>
    match data.lookup address with
    | some entry =>
      match entry.final_balance with
      | some (.num q) => (some q, .gotBalance q)
      | _ => (none, .noField)
    | none => (none, .noField)

/-- `getRootFromMnemonic` (src/index.js:58-61): seed from mnemonic, then
bip32 root from seed; either step may throw. -/
def getRootFromMnemonic (env : Env Seed Root Child Pubkey) (mnemonic : String) :
    Except String Root :=
  match env.mnemonicToSeedSync mnemonic with
  | .error msg => .error msg
  | .ok seed => env.fromSeed seed

/-- `derivePubkeyAndAddress` (src/index.js:64-106): derive the child at
`path`, then switch on the address type; the `default:` branch throws an
unsupported-addressType error. -/
def derivePubkeyAndAddress (env : Env Seed Root Child Pubkey) (root : Root)
    (path : String) (addressType : String) : Except DeriveErr (Pubkey × String) :=
  match env.derivePath root path with
  | .error msg => .error (.derivation msg)
  | .ok child =>
    let pubkeyBuffer := env.publicKey child
    if addressType = "P2PKH" then
      .ok (pubkeyBuffer, (env.p2pkh pubkeyBuffer).address)
    else if addressType = "P2SH-P2WPKH" then
      .ok (pubkeyBuffer, (env.p2sh (env.p2wpkh pubkeyBuffer)).address)
    else if addressType = "P2WPKH" then
      .ok (pubkeyBuffer, (env.p2wpkh pubkeyBuffer).address)
    else
      .error (.unsupported addressType)

/-- `mnemonicWords.filter((x) => x === null).length` (src/index.js:45). -/
def nullCount (template : List (Option String)) : Nat :=
  (template.filter (fun x => x.isNone)).length

/-- `mnemonicWords.indexOf(null)` (src/index.js:51). -/
def missingIndexOf (template : List (Option String)) : Nat :=
  template.findIdx (fun x => x.isNone)

/-- `mnemonicWords[missingIndex] = wordlist[i]` (src/index.js:133),
as an immutable update of the template. -/
def substituteWord (template : List (Option String)) (k : Nat) (w : String) :
    List (Option String) :=
  template.set k (some w)

/-- `mnemonicWords.join(' ')` (src/index.js:134); JavaScript `join`
renders `null` as the empty string. -/
def joinWords (ws : List (Option String)) : String :=
  String.intercalate " " (ws.map (fun o => o.getD ""))

/-- The candidate phrase tried at one loop iteration: the template with
the word written into the hole, joined by spaces (src/index.js:133-134). -/
def candidatePhrase (template : List (Option String)) (k : Nat) (w : String) :
    String :=
  joinWords (substituteWord template k w)

/-- The full sequence of candidate phrases the loop ranges over, one per
wordlist entry, in wordlist order. -/
def candidatePhrases (template : List (Option String)) (k : Nat)
    (wordlist : List String) : List String :=
  wordlist.map (fun w => candidatePhrase template k w)

/-- `indicesToCheck` (src/index.js:155). -/
def indicesToCheck : List Nat := [0]

/-- `addressTypes` (src/index.js:156-160): scheme tag and derivation-path
stem, in the fixed order Legacy, WrappedSegwit, NativeSegwit. -/
def addressTypes : List (String × String) :=
  [("P2PKH", "m/44\x27/0\x27/0\x27/0/"),
   ("P2SH-P2WPKH", "m/49\x27/0\x27/0\x27/0/"),
   ("P2WPKH", "m/84\x27/0\x27/0\x27/0/")]

/-- The data printed in the FOUND block (src/index.js:182-188) when an
address has positive balance. -/
structure Found where
  missingIndex : Nat
  wordIndex : Nat
  word : String
  phrase : String
  code : String
  path : String
  address : String
  balance : ℚ
deriving DecidableEq

/-- Observable steps of a run, mirroring the script's log lines: checksum
pass, root-derivation failure, a derived address, a per-scheme derivation
failure, the balance lookup and its outcome. -/
inductive Event where
  | checksumValid (i : Nat) (phrase : String)
  | rootErr (i : Nat) (msg : String)
  | derivedAddr (i : Nat) (code : String) (path : String) (addr : String)
  | deriveErr (i : Nat) (code : String) (path : String) (e : DeriveErr)
  | balChecked (i : Nat) (addr : String) (l : BalLog)
  | balUnknown (i : Nat) (addr : String)
  | balZero (i : Nat) (addr : String) (q : ℚ)
deriving DecidableEq

/-- The wordlist index a log event belongs to. -/
def Event.idx : Event → Nat
  | .checksumValid i _ => i
  | .rootErr i _ => i
  | .derivedAddr i _ _ _ => i
  | .deriveErr i _ _ _ => i
  | .balChecked i _ _ => i
  | .balUnknown i _ => i
  | .balZero i _ _ => i

/-- The scheme tags for which `derivePubkeyAndAddress` was invoked,
in trace order. -/
def attemptCodes (tr : List Event) : List String :=
  tr.filterMap (fun e =>
    match e with
    | .derivedAddr _ c _ _ => some c
    | .deriveErr _ c _ _ => some c
    | _ => none)

/-- The inner `for (const { code, prefix } of addressTypes)` loop
(src/index.js:163-193): derive each scheme's address (a failure is caught,
logged and skipped), query its balance, stop with a `Found` on the first
positive balance, otherwise continue with the remaining schemes. -/
def checkSchemes (env : Env Seed Root Child Pubkey) (k i : Nat)
    (w ph : String) (root : Root) (idx : Nat) :
    List (String × String) → Option Found × List Event
  | [] => (none, [])
  | (code, pfx) :: rest =>
    let path := pfx ++ toString idx
    match derivePubkeyAndAddress env root path code with
    | .error e =>
      let p := checkSchemes env k i w ph root idx rest
      (p.1, .deriveErr i code path e :: p.2)
    | .ok pa =>
      let addr := pa.2
      let bal := getBalanceSatoshis env.oracle addr
      match bal.1 with
      | none =>
        let p := checkSchemes env k i w ph root idx rest
        (p.1, .derivedAddr i code path addr :: .balChecked i addr bal.2 ::
              .balUnknown i addr :: p.2)
      | some q =>
        if 0 < q then
          (some ⟨k, i, w, ph, code, path, addr, q⟩,
           [.derivedAddr i code path addr, .balChecked i addr bal.2])
        else
          let p := checkSchemes env k i w ph root idx rest
          (p.1, .derivedAddr i code path addr :: .balChecked i addr bal.2 ::
                .balZero i addr q :: p.2)

/-- The outer `for (const idx of indicesToCheck)` loop (src/index.js:162). -/
def checkIndices (env : Env Seed Root Child Pubkey) (k i : Nat)
    (w ph : String) (root : Root) : List Nat → Option Found × List Event
  | [] => (none, [])
  | idx :: rest =>
    match (checkSchemes env k i w ph root idx addressTypes).1 with
    | some f => (some f, (checkSchemes env k i w ph root idx addressTypes).2)
    | none =>
      let p := checkIndices env k i w ph root rest
      (p.1, (checkSchemes env k i w ph root idx addressTypes).2 ++ p.2)

/-- One iteration of the main loop (src/index.js:131-194): substitute the
word, validate the checksum (silently skipping on failure), derive the HD
root (logging and skipping on failure), then try the address schemes. -/
def processCandidate (env : Env Seed Root Child Pubkey)
    (template : List (Option String)) (k i : Nat) (w : String) :
    Option Found × List Event :=
  let ph := candidatePhrase template k w
  if !env.validateMnemonic ph then (none, [])
  else
    match getRootFromMnemonic env ph with
    | .error msg => (none, [.checksumValid i ph, .rootErr i msg])
    | .ok root =>
      let p := checkIndices env k i w ph root indicesToCheck
      (p.1, .checksumValid i ph :: p.2)

/-- Terminal state of the main loop: the FOUND early exit or exhaustion of
the wordlist. -/
inductive RunResult where
  | found (f : Found)
  | exhausted
deriving DecidableEq

/-- The `for (let i = 0; ...)` loop (src/index.js:131-195) over the words
still to try, with `i` the current loop counter: the first candidate that
reaches a positive balance terminates the whole loop. -/
def searchFrom (env : Env Seed Root Child Pubkey)
    (template : List (Option String)) (k i : Nat) :
    List String → RunResult × List Event
  | [] => (.exhausted, [])
  | w :: rest =>
    match (processCandidate env template k i w).1 with
    | some f => (.found f, (processCandidate env template k i w).2)
    | none =>
      let p := searchFrom env template k (i + 1) rest
      (p.1, (processCandidate env template k i w).2 ++ p.2)

/-- Outcome of the whole script: the `process.exit(1)` configuration
failure, or a completed search with its terminal state and log trace
(both `process.exit(0)`). -/
inductive ProgResult where
  | configError
  | finished (r : RunResult) (tr : List Event)
deriving DecidableEq

/-- The whole script (src/index.js:26-201): the exactly-one-null check,
then the main loop over the wordlist starting at index 0. -/
def run (template : List (Option String)) (wordlist : List String)
    (env : Env Seed Root Child Pubkey) : ProgResult :=
  if nullCount template ≠ 1 then .configError
  else
    let p := searchFrom env template (missingIndexOf template) 0 wordlist
    .finished p.1 p.2

/-- The process exit code: 1 for the configuration failure
(src/index.js:48), 0 for both terminal states of the search
(src/index.js:189, 200). -/
def exitCode : ProgResult → Nat
  | .configError => 1
  | .finished _ _ => 0

/-- The log trace of a program outcome; empty when the configuration
check failed before the loop. -/
def progTrace : ProgResult → List Event
  | .configError => []
  | .finished _ tr => tr

/-! ### Helper lemmas about the embedding -/

lemma mem_checkSchemes_idx (env : Env Seed Root Child Pubkey) (k i : Nat)
    (w ph : String) (root : Root) (idx : Nat) :
    ∀ (ss : List (String × String)),
      ∀ e ∈ (checkSchemes env k i w ph root idx ss).2, e.idx = i := by
  intro ss
  induction ss with
  | nil => intro e he; simp [checkSchemes] at he
  | cons hd rest ih =>
    obtain ⟨code, pfx⟩ := hd
    intro e he
    simp only [checkSchemes] at he
    split at he
    · simp only [List.mem_cons] at he
      rcases he with rfl | he
      · rfl
      · exact ih e he
    · split at he
      · simp only [List.mem_cons] at he
        rcases he with rfl | rfl | rfl | he
        · rfl
        · rfl
        · rfl
        · exact ih e he
      · split at he
        · simp only [List.mem_cons, List.not_mem_nil, or_false] at he
          rcases he with rfl | rfl
          · rfl
          · rfl
        · simp only [List.mem_cons] at he
          rcases he with rfl | rfl | rfl | he
          · rfl
          · rfl
          · rfl
          · exact ih e he

lemma mem_checkIndices_idx (env : Env Seed Root Child Pubkey) (k i : Nat)
    (w ph : String) (root : Root) :
    ∀ (ids : List Nat),
      ∀ e ∈ (checkIndices env k i w ph root ids).2, e.idx = i := by
  intro ids
  induction ids with
  | nil => intro e he; simp [checkIndices] at he
  | cons idx rest ih =>
    intro e he
    simp only [checkIndices] at he
    split at he
    · exact mem_checkSchemes_idx env k i w ph root idx addressTypes e he
    · simp only [List.mem_append] at he
      rcases he with he | he
      · exact mem_checkSchemes_idx env k i w ph root idx addressTypes e he
      · exact ih e he

lemma mem_processCandidate_idx (env : Env Seed Root Child Pubkey)
    (template : List (Option String)) (k i : Nat) (w : String) :
    ∀ e ∈ (processCandidate env template k i w).2, e.idx = i := by
  intro e he
  simp only [processCandidate] at he
  split at he
  · simp at he
  · split at he
    · simp only [List.mem_cons, List.not_mem_nil, or_false] at he
      rcases he with rfl | rfl
      · rfl
      · rfl
    · simp only [List.mem_cons] at he
      rcases he with rfl | he
      · rfl
      · exact mem_checkIndices_idx env k i w _ _ indicesToCheck e he

lemma checkSchemes_found_shape (env : Env Seed Root Child Pubkey) (k i : Nat)
    (w ph : String) (root : Root) (idx : Nat) :
    ∀ (ss : List (String × String)) (f : Found),
      (checkSchemes env k i w ph root idx ss).1 = some f →
      f.missingIndex = k ∧ f.wordIndex = i ∧ f.word = w ∧ f.phrase = ph ∧
        0 < f.balance := by
  intro ss
  induction ss with
  | nil => intro f hf; simp [checkSchemes] at hf
  | cons hd rest ih =>
    obtain ⟨code, pfx⟩ := hd
    intro f hf
    simp only [checkSchemes] at hf
    split at hf
    · exact ih f hf
    · split at hf
      · exact ih f hf
      · split at hf
        · simp only [Option.some.injEq] at hf
          subst hf
          refine ⟨rfl, rfl, rfl, rfl, ?_⟩
          assumption
        · exact ih f hf

lemma checkIndices_found_shape (env : Env Seed Root Child Pubkey) (k i : Nat)
    (w ph : String) (root : Root) :
    ∀ (ids : List Nat) (f : Found),
      (checkIndices env k i w ph root ids).1 = some f →
      f.missingIndex = k ∧ f.wordIndex = i ∧ f.word = w ∧ f.phrase = ph ∧
        0 < f.balance := by
  intro ids
  induction ids with
  | nil => intro f hf; simp [checkIndices] at hf
  | cons idx rest ih =>
    intro f hf
    simp only [checkIndices] at hf
    split at hf
    · simp only [Option.some.injEq] at hf
      subst hf
      exact checkSchemes_found_shape env k i w ph root idx addressTypes _ (by assumption)
    · exact ih f hf

lemma processCandidate_found_shape (env : Env Seed Root Child Pubkey)
    (template : List (Option String)) (k i : Nat) (w : String) (f : Found)
    (hf : (processCandidate env template k i w).1 = some f) :
    f.missingIndex = k ∧ f.wordIndex = i ∧ f.word = w ∧
      f.phrase = candidatePhrase template k w ∧ 0 < f.balance := by
  simp only [processCandidate] at hf
  split at hf
  · simp at hf
  · split at hf
    · simp at hf
    · exact checkIndices_found_shape env k i w _ _ indicesToCheck f hf

lemma processCandidate_invalid (env : Env Seed Root Child Pubkey)
    (template : List (Option String)) (k i : Nat) (w : String)
    (h : env.validateMnemonic (candidatePhrase template k w) = false) :
    processCandidate env template k i w = (none, []) := by
  simp [processCandidate, h]

lemma searchFrom_cons_found (env : Env Seed Root Child Pubkey)
    (template : List (Option String)) (k i : Nat) (w : String)
    (rest : List String) (f : Found)
    (hf : (processCandidate env template k i w).1 = some f) :
    searchFrom env template k i (w :: rest) =
      (.found f, (processCandidate env template k i w).2) := by
  simp only [searchFrom, hf]

lemma searchFrom_cons_none (env : Env Seed Root Child Pubkey)
    (template : List (Option String)) (k i : Nat) (w : String)
    (rest : List String)
    (hf : (processCandidate env template k i w).1 = none) :
    searchFrom env template k i (w :: rest) =
      ((searchFrom env template k (i + 1) rest).1,
       (processCandidate env template k i w).2 ++
         (searchFrom env template k (i + 1) rest).2) := by
  simp only [searchFrom, hf]

lemma searchFrom_all_none (env : Env Seed Root Child Pubkey)
    (template : List (Option String)) (k : Nat) :
    ∀ (ws : List String) (i : Nat),
      (∀ m w', ws[m]? = some w' →
        (processCandidate env template k (i + m) w').1 = none) →
      (searchFrom env template k i ws).1 = .exhausted := by
  intro ws
  induction ws with
  | nil => intro i _; simp [searchFrom]
  | cons w rest ih =>
    intro i h
    have h0 : (processCandidate env template k i w).1 = none := by
      have := h 0 w (by simp)
      simpa using this
    rw [searchFrom_cons_none env template k i w rest h0]
    exact ih (i + 1) (fun m w' hm => by
      have hh := h (m + 1) w' (by simpa using hm)
      have he : i + (m + 1) = i + 1 + m := by omega
      rw [he] at hh
      exact hh)

lemma searchFrom_append_exhausted (env : Env Seed Root Child Pubkey)
    (template : List (Option String)) (k : Nat) :
    ∀ (xs : List String) (i : Nat) (ys : List String),
      (searchFrom env template k i xs).1 = .exhausted →
      searchFrom env template k i (xs ++ ys) =
        ((searchFrom env template k (i + xs.length) ys).1,
         (searchFrom env template k i xs).2 ++
           (searchFrom env template k (i + xs.length) ys).2) := by
  intro xs
  induction xs with
  | nil => intro i ys _; simp [searchFrom]
  | cons x xs ih =>
    intro i ys hex
    cases hpc : (processCandidate env template k i x).1 with
    | some f =>
      rw [searchFrom_cons_found env template k i x xs f hpc] at hex
      simp at hex
    | none =>
      rw [searchFrom_cons_none env template k i x xs hpc] at hex
      have hex' : (searchFrom env template k (i + 1) xs).1 = .exhausted := hex
      have hlen : i + (x :: xs).length = i + 1 + xs.length := by
        simp [List.length_cons]; omega
      rw [List.cons_append,
          searchFrom_cons_none env template k i x (xs ++ ys) hpc,
          ih (i + 1) ys hex',
          searchFrom_cons_none env template k i x xs hpc, hlen]
      simp [List.append_assoc]

lemma mem_searchFrom_trace (env : Env Seed Root Child Pubkey)
    (template : List (Option String)) (k : Nat) :
    ∀ (ws : List String) (i : Nat), ∀ e ∈ (searchFrom env template k i ws).2,
      ∃ m w', ws[m]? = some w' ∧ e.idx = i + m ∧
        e ∈ (processCandidate env template k (i + m) w').2 := by
  intro ws
  induction ws with
  | nil => intro i e he; simp [searchFrom] at he
  | cons w rest ih =>
    intro i e he
    cases hpc : (processCandidate env template k i w).1 with
    | some f =>
      rw [searchFrom_cons_found env template k i w rest f hpc] at he
      exact ⟨0, w, by simp,
        by simpa using mem_processCandidate_idx env template k i w e he, he⟩
    | none =>
      rw [searchFrom_cons_none env template k i w rest hpc] at he
      simp only [List.mem_append] at he
      rcases he with he | he
      · exact ⟨0, w, by simp,
          by simpa using mem_processCandidate_idx env template k i w e he, he⟩
      · obtain ⟨m, w', hm, hidx, hmem⟩ := ih (i + 1) e he
        refine ⟨m + 1, w', by simpa using hm, by omega, ?_⟩
        have hx : i + 1 + m = i + (m + 1) := by omega
        rw [hx] at hmem
        exact hmem

lemma checkSchemes_none_of_no_pos (env : Env Seed Root Child Pubkey)
    (k i : Nat) (w ph : String) (root : Root) (idx : Nat)
    (h : ∀ a q, (getBalanceSatoshis env.oracle a).1 = some q → ¬ 0 < q) :
    ∀ ss : List (String × String),
      (checkSchemes env k i w ph root idx ss).1 = none := by
  intro ss
  induction ss with
  | nil => simp [checkSchemes]
  | cons hd rest ih =>
    obtain ⟨code, pfx⟩ := hd
    cases hd_ : derivePubkeyAndAddress env root (pfx ++ toString idx) code with
    | error e => simp only [checkSchemes, hd_]; exact ih
    | ok pa =>
      cases hb : (getBalanceSatoshis env.oracle pa.2).1 with
      | none => simp only [checkSchemes, hd_, hb]; exact ih
      | some q =>
        have hq : ¬ 0 < q := h pa.2 q hb
        simp only [checkSchemes, hd_, hb, if_neg hq]
        exact ih

lemma processCandidate_none_of_no_pos (env : Env Seed Root Child Pubkey)
    (template : List (Option String)) (k i : Nat) (w : String)
    (h : ∀ a q, (getBalanceSatoshis env.oracle a).1 = some q → ¬ 0 < q) :
    (processCandidate env template k i w).1 = none := by
  simp only [processCandidate]
  split
  · rfl
  · split
    · rfl
    · rename_i root _
      simp [indicesToCheck, checkIndices,
        checkSchemes_none_of_no_pos env k i w _ root 0 h]

lemma attemptCodes_checkSchemes (env : Env Seed Root Child Pubkey)
    (k i : Nat) (w ph : String) (root : Root) (idx : Nat) :
    ∀ ss : List (String × String),
      ∃ n, attemptCodes (checkSchemes env k i w ph root idx ss).2 =
        (ss.map Prod.fst).take n := by
  intro ss
  induction ss with
  | nil => exact ⟨0, by simp [checkSchemes, attemptCodes]⟩
  | cons hd rest ih =>
    obtain ⟨code, pfx⟩ := hd
    obtain ⟨n, hn⟩ := ih
    simp only [attemptCodes] at hn
    cases hd_ : derivePubkeyAndAddress env root (pfx ++ toString idx) code with
    | error e =>
      refine ⟨n + 1, ?_⟩
      simp only [checkSchemes, hd_, attemptCodes, List.filterMap_cons,
        List.map_cons, List.take_succ_cons]
      rw [hn]
    | ok pa =>
      cases hb : (getBalanceSatoshis env.oracle pa.2).1 with
      | none =>
        refine ⟨n + 1, ?_⟩
        simp only [checkSchemes, hd_, hb, attemptCodes, List.filterMap_cons,
          List.map_cons, List.take_succ_cons]
        rw [hn]
      | some q =>
        by_cases hq : 0 < q
        · refine ⟨1, ?_⟩
          simp [checkSchemes, hd_, hb, if_pos hq, attemptCodes,
            List.filterMap_cons]
        · refine ⟨n + 1, ?_⟩
          simp only [checkSchemes, hd_, hb, if_neg hq, attemptCodes,
            List.filterMap_cons, List.map_cons, List.take_succ_cons]
          rw [hn]

lemma attemptCodes_processCandidate (env : Env Seed Root Child Pubkey)
    (template : List (Option String)) (k i : Nat) (w : String) :
    ∃ n, attemptCodes (processCandidate env template k i w).2 =
      (addressTypes.map Prod.fst).take n := by
  simp only [processCandidate]
  split
  · exact ⟨0, by simp [attemptCodes]⟩
  · split
    · exact ⟨0, by simp [attemptCodes]⟩
    · rename_i root _
      obtain ⟨n, hn⟩ :=
        attemptCodes_checkSchemes env k i w (candidatePhrase template k w)
          root 0 addressTypes
      simp only [attemptCodes] at hn
      refine ⟨n, ?_⟩
      simp only [indicesToCheck, checkIndices]
      split
      · simp only [attemptCodes, List.filterMap_cons]
        exact hn
      · simp only [attemptCodes, List.filterMap_cons, checkIndices,
          List.append_nil]
        exact hn

lemma nullCount_cons (a : Option String) (l : List (Option String)) :
    nullCount (a :: l) = (if a.isNone then 1 else 0) + nullCount l := by
  cases a <;> simp [nullCount, List.filter_cons, Nat.add_comm]

lemma nullCount_set_missing (w : String) :
    ∀ t : List (Option String), nullCount t = 1 →
      nullCount (t.set (missingIndexOf t) (some w)) = 0 := by
  intro t
  induction t with
  | nil => simp [nullCount]
  | cons a l ih =>
    intro h
    cases a with
    | none =>
      have hl : nullCount l = 0 := by
        have := nullCount_cons none l
        simp at this
        omega
      have hidx : missingIndexOf (none :: l) = 0 := by
        simp [missingIndexOf, List.findIdx_cons]
      rw [hidx, List.set_cons_zero]
      have := nullCount_cons (some w) l
      simp at this
      omega
    | some s =>
      have hl : nullCount l = 1 := by
        have := nullCount_cons (some s) l
        simp at this
        omega
      have hidx : missingIndexOf (some s :: l) =
          missingIndexOf l + 1 := by
        simp [missingIndexOf, List.findIdx_cons]
      rw [hidx, List.set_cons_succ]
      have := nullCount_cons (some s) (l.set (missingIndexOf l) (some w))
      simp at this
      rw [this]
      exact ih hl

lemma searchFrom_found_balance (env : Env Seed Root Child Pubkey)
    (template : List (Option String)) (k : Nat) :
    ∀ (ws : List String) (i : Nat) (f : Found),
      (searchFrom env template k i ws).1 = .found f → 0 < f.balance := by
  intro ws
  induction ws with
  | nil => intro i f h; simp [searchFrom] at h
  | cons w rest ih =>
    intro i f h
    cases hpc : (processCandidate env template k i w).1 with
    | some f' =>
      rw [searchFrom_cons_found env template k i w rest f' hpc] at h
      have hf : f' = f := by simpa using h
      subst hf
      exact (processCandidate_found_shape env template k i w f' hpc).2.2.2.2
    | none =>
      rw [searchFrom_cons_none env template k i w rest hpc] at h
      exact ih (i + 1) f h

/-! ### Concrete environments used by the witnesses -/

/-- All external calls succeed and every address reports 7 satoshis. -/
def envPos : Env Unit Unit Unit Unit where
  validateMnemonic := fun _ => true
  mnemonicToSeedSync := fun _ => .ok ()
  fromSeed := fun _ => .ok ()
  derivePath := fun _ _ => .ok ()
  publicKey := fun _ => ()
  p2pkh := fun _ => ⟨"A1"⟩
  p2wpkh := fun _ => ⟨"W1"⟩
  p2sh := fun _ => ⟨"S1"⟩
  oracle := fun a => .ok [(a, ⟨some (.num 7)⟩)]

/-- All external calls succeed and every address reports 0 satoshis. -/
def envZero : Env Unit Unit Unit Unit where
  validateMnemonic := fun _ => true
  mnemonicToSeedSync := fun _ => .ok ()
  fromSeed := fun _ => .ok ()
  derivePath := fun _ _ => .ok ()
  publicKey := fun _ => ()
  p2pkh := fun _ => ⟨"A1"⟩
  p2wpkh := fun _ => ⟨"W1"⟩
  p2sh := fun _ => ⟨"S1"⟩
  oracle := fun a => .ok [(a, ⟨some (.num 0)⟩)]

/-- Every balance request hits the network timeout. -/
def envTimeout : Env Unit Unit Unit Unit where
  validateMnemonic := fun _ => true
  mnemonicToSeedSync := fun _ => .ok ()
  fromSeed := fun _ => .ok ()
  derivePath := fun _ _ => .ok ()
  publicKey := fun _ => ()
  p2pkh := fun _ => ⟨"A1"⟩
  p2wpkh := fun _ => ⟨"W1"⟩
  p2sh := fun _ => ⟨"S1"⟩
  oracle := fun _ => .err "timeout of 10000ms exceeded"

/-- Seed generation throws for every mnemonic. -/
def envRootFail : Env Unit Unit Unit Unit where
  validateMnemonic := fun _ => true
  mnemonicToSeedSync := fun _ => .error "bad entropy"
  fromSeed := fun _ => .ok ()
  derivePath := fun _ _ => .ok ()
  publicKey := fun _ => ()
  p2pkh := fun _ => ⟨"A1"⟩
  p2wpkh := fun _ => ⟨"W1"⟩
  p2sh := fun _ => ⟨"S1"⟩
  oracle := fun a => .ok [(a, ⟨some (.num 0)⟩)]

/-- Every address reports the non-integer negative balance -3/2. -/
def envNeg : Env Unit Unit Unit Unit where
  validateMnemonic := fun _ => true
  mnemonicToSeedSync := fun _ => .ok ()
  fromSeed := fun _ => .ok ()
  derivePath := fun _ _ => .ok ()
  publicKey := fun _ => ()
  p2pkh := fun _ => ⟨"A1"⟩
  p2wpkh := fun _ => ⟨"W1"⟩
  p2sh := fun _ => ⟨"S1"⟩
  oracle := fun a => .ok [(a, ⟨some (.num (mkRat (-3) 2))⟩)]

/-- Checksum validation rejects every candidate phrase. -/
def envInvalid : Env Unit Unit Unit Unit :=
  { envZero with validateMnemonic := fun _ => false }

/-! ### The claims -/

/-- C4: a template whose number of unresolved (null) slots is not exactly
one makes the program terminate with the failure signal before any
wordlist iteration: the outcome is the configuration error, the exit code
is 1, and the log trace is empty — no candidate is generated or checked. -/
theorem C4_config_check (env : Env Seed Root Child Pubkey)
    (template : List (Option String)) (wordlist : List String)
    (h : nullCount template ≠ 1) :
    run template wordlist env = .configError ∧
      exitCode (run template wordlist env) = 1 ∧
      progTrace (run template wordlist env) = [] := by
  simp [run, h, exitCode, progTrace]

theorem C4_config_check_witness :
    run [some "a", some "b"] ["abandon"] envZero = .configError ∧
      exitCode (run [some "a", some "b"] ["abandon"] envZero) = 1 ∧
      progTrace (run [some "a", some "b"] ["abandon"] envZero) = [] :=
  C4_config_check envZero [some "a", some "b"] ["abandon"] (by decide)

/-- C6: the balance-oracle client never lets a failure escape: on a
response carrying a numeric `final_balance` for the queried address it
returns that number, on a response with a missing entry or a missing or
non-numeric `final_balance` field it returns the unknown result with an
informational log, and on a thrown network error or timeout it returns the
unknown result with the error recorded. -/
theorem C6_oracle_client_total (oracle : String → OracleResponse)
    (addr : String) :
    (∀ data entry q, oracle addr = .ok data → data.lookup addr = some entry →
        entry.final_balance = some (.num q) →
        getBalanceSatoshis oracle addr = (some q, .gotBalance q)) ∧
    (∀ data entry, oracle addr = .ok data → data.lookup addr = some entry →
        (∀ q, entry.final_balance ≠ some (.num q)) →
        getBalanceSatoshis oracle addr = (none, .noField)) ∧
    (∀ data, oracle addr = .ok data → data.lookup addr = none →
        getBalanceSatoshis oracle addr = (none, .noField)) ∧
    (∀ msg, oracle addr = .err msg →
        getBalanceSatoshis oracle addr = (none, .netErr msg)) := by
  refine ⟨?_, ?_, ?_, ?_⟩
  · intro data entry q h1 h2 h3
    simp [getBalanceSatoshis, h1, h2, h3]
  · intro data entry h1 h2 h3
    cases hfb : entry.final_balance with
    | none => simp [getBalanceSatoshis, h1, h2, hfb]
    | some v =>
      cases v with
      | num q => exact absurd hfb (h3 q)
      | other => simp [getBalanceSatoshis, h1, h2, hfb]
  · intro data h1 h2
    simp [getBalanceSatoshis, h1, h2]
  · intro msg h1
    simp [getBalanceSatoshis, h1]

theorem C6_oracle_client_total_witness :
    getBalanceSatoshis (fun _ => .err "timeout of 10000ms exceeded") "bc1q" =
      (none, .netErr "timeout of 10000ms exceeded") :=
  (C6_oracle_client_total (fun _ => .err "timeout of 10000ms exceeded")
    "bc1q").2.2.2 "timeout of 10000ms exceeded" rfl

/-- C9: determinism as a two-run property — running the search twice over
the same template and wordlist, with oracles that give identical responses
to identical queries, reaches the identical terminal state. -/
theorem C9_deterministic_rerun (env : Env Seed Root Child Pubkey)
    (o2 : String → OracleResponse)
    (template : List (Option String)) (wordlist : List String)
    (h : ∀ a, o2 a = env.oracle a) :
    run template wordlist { env with oracle := o2 } =
      run template wordlist env := by
  have ho : o2 = env.oracle := funext h
  have henv : ({ env with oracle := o2 } : Env Seed Root Child Pubkey) = env := by
    cases env
    simp [ho]
  rw [henv]

theorem C9_deterministic_rerun_witness :
    run [some "x", none] ["a", "b"] { envZero with oracle := envZero.oracle } =
      run [some "x", none] ["a", "b"] envZero :=
  C9_deterministic_rerun envZero envZero.oracle [some "x", none] ["a", "b"]
    (fun _ => rfl)

/-- C10: a well-formed oracle response whose `final_balance` is a number
that need not be a positive integer is returned by the client as-is (never
coerced to the unknown result and never checked for non-negativity); the
strict comparison `balance > 0` is the sole success criterion: with such a
non-positive balance the scheme loop continues instead of succeeding, and
any Success outcome of a full run carries a strictly positive balance. -/
theorem C10_nonpositive_balance (env : Env Seed Root Child Pubkey)
    (addr : String) (data : List (String × AddrEntry)) (q : ℚ)
    (h1 : env.oracle addr = .ok data)
    (h2 : data.lookup addr = some ⟨some (.num q)⟩) :
    (getBalanceSatoshis env.oracle addr).1 = some q ∧
    (∀ (k i idx : Nat) (w ph code pfx : String) (root : Root)
        (ss : List (String × String)) (pa : Pubkey × String),
        derivePubkeyAndAddress env root (pfx ++ toString idx) code = .ok pa →
        pa.2 = addr → ¬ 0 < q →
        (checkSchemes env k i w ph root idx ((code, pfx) :: ss)).1 =
          (checkSchemes env k i w ph root idx ss).1) ∧
    (∀ (template : List (Option String)) (wordlist : List String)
        (f : Found) (tr : List Event),
        run template wordlist env = .finished (.found f) tr →
        0 < f.balance) := by
  refine ⟨by simp [getBalanceSatoshis, h1, h2], ?_, ?_⟩
  · intro k i idx w ph code pfx root ss pa hd_ hpa hq
    have hbal : (getBalanceSatoshis env.oracle pa.2).1 = some q := by
      rw [hpa]; simp [getBalanceSatoshis, h1, h2]
    simp [checkSchemes, hd_, hbal, if_neg hq]
  · intro template wordlist f tr hrun
    by_cases hn : nullCount template ≠ 1
    · simp [run, hn] at hrun
    · simp only [run, if_neg hn, ProgResult.finished.injEq] at hrun
      exact searchFrom_found_balance env template (missingIndexOf template)
        wordlist 0 f hrun.1

theorem C10_nonpositive_balance_witness :
    (getBalanceSatoshis envNeg.oracle "A1").1 = some (mkRat (-3) 2) ∧
    (∀ (k i idx : Nat) (w ph code pfx : String) (root : Unit)
        (ss : List (String × String)) (pa : Unit × String),
        derivePubkeyAndAddress envNeg root (pfx ++ toString idx) code = .ok pa →
        pa.2 = "A1" → ¬ 0 < mkRat (-3) 2 →
        (checkSchemes envNeg k i w ph root idx ((code, pfx) :: ss)).1 =
          (checkSchemes envNeg k i w ph root idx ss).1) ∧
    (∀ (template : List (Option String)) (wordlist : List String)
        (f : Found) (tr : List Event),
        run template wordlist envNeg = .finished (.found f) tr →
        0 < f.balance) :=
  C10_nonpositive_balance envNeg "A1" [("A1", ⟨some (.num (mkRat (-3) 2))⟩)]
    (mkRat (-3) 2) rfl (by decide)

/-- C3: a candidate whose hole substitution fails the checksum validation
is silently discarded: its loop iteration produces no log events and no
derivation call (its result is `(none, [])`), and the full run's trace
contains no event at that wordlist index at all. -/
theorem C3_invalid_checksum_skipped (env : Env Seed Root Child Pubkey)
    (template : List (Option String)) (wordlist : List String) (i : Nat)
    (hk : nullCount template = 1)
    (hval : env.validateMnemonic
        (candidatePhrase template (missingIndexOf template)
          (wordlist.getD i "")) = false) :
    processCandidate env template (missingIndexOf template) i
        (wordlist.getD i "") = (none, []) ∧
    ∀ e ∈ progTrace (run template wordlist env), e.idx ≠ i := by
  have hpc := processCandidate_invalid env template (missingIndexOf template) i
      (wordlist.getD i "") hval
  refine ⟨hpc, ?_⟩
  intro e he hei
  have hne : ¬ nullCount template ≠ 1 := by omega
  simp only [run, if_neg hne, progTrace] at he
  obtain ⟨m, w', hm, hidx, hmem⟩ :=
    mem_searchFrom_trace env template (missingIndexOf template) wordlist 0 e he
  have hmi : m = i := by omega
  subst hmi
  have hw : wordlist.getD m "" = w' := by
    rw [List.getD_eq_getElem?_getD, hm]
    rfl
  rw [Nat.zero_add, ← hw, hpc] at hmem
  simp at hmem

theorem C3_invalid_checksum_skipped_witness :
    processCandidate envInvalid [some "x", none]
        (missingIndexOf [some "x", none]) 0 (["a", "b"].getD 0 "") =
      (none, []) ∧
    ∀ e ∈ progTrace (run [some "x", none] ["a", "b"] envInvalid),
      e.idx ≠ 0 :=
  C3_invalid_checksum_skipped envInvalid [some "x", none] ["a", "b"] 0
    (by decide) rfl

/-- C8: a run in which no queried address ever reports a positive balance
— in particular one where the oracle times out or answers malformed for
every address — terminates in the Exhausted state with the success exit
code; exhaustion is not an error condition. -/
theorem C8_exhaustion_success (env : Env Seed Root Child Pubkey)
    (template : List (Option String)) (wordlist : List String)
    (hk : nullCount template = 1)
    (hbal : ∀ a q, (getBalanceSatoshis env.oracle a).1 = some q → ¬ 0 < q) :
    run template wordlist env =
      .finished .exhausted
        (searchFrom env template (missingIndexOf template) 0 wordlist).2 ∧
    exitCode (run template wordlist env) = 0 := by
  have hex : (searchFrom env template (missingIndexOf template) 0
      wordlist).1 = .exhausted :=
    searchFrom_all_none env template (missingIndexOf template) wordlist 0
      (fun _ w' _ => processCandidate_none_of_no_pos env template _ _ w' hbal)
  have hne : ¬ nullCount template ≠ 1 := by omega
  constructor
  · simp only [run, if_neg hne]
    rw [hex]
  · simp [run, if_neg hne, exitCode]

theorem C8_exhaustion_success_witness :
    run [some "x", none] ["a", "b"] envTimeout =
      .finished .exhausted
        (searchFrom envTimeout [some "x", none]
          (missingIndexOf [some "x", none]) 0 ["a", "b"]).2 ∧
    exitCode (run [some "x", none] ["a", "b"] envTimeout) = 0 :=
  C8_exhaustion_success envTimeout [some "x", none] ["a", "b"] (by decide)
    (by intro a q h; simp [getBalanceSatoshis, envTimeout] at h)

/-- C5: a key-derivation failure is logged and never aborts the search: a
failure while deriving the HD root from the seed produces the error-log
event and the loop advances to the next candidate with the remaining
search outcome unchanged, and a failure while deriving a child key at one
of the scheme paths produces the error-log event and the loop continues
with the remaining schemes of that candidate. -/
theorem C5_derivation_failure_skipped (env : Env Seed Root Child Pubkey)
    (template : List (Option String)) (k i : Nat) (w : String)
    (rest : List String) (msg : String)
    (hval : env.validateMnemonic (candidatePhrase template k w) = true)
    (hroot : getRootFromMnemonic env (candidatePhrase template k w) =
      .error msg) :
    processCandidate env template k i w =
      (none, [.checksumValid i (candidatePhrase template k w),
              .rootErr i msg]) ∧
    (searchFrom env template k i (w :: rest)).1 =
      (searchFrom env template k (i + 1) rest).1 ∧
    (∀ (ph : String) (root : Root) (idx : Nat) (code pfx : String)
        (ss : List (String × String)) (e : DeriveErr),
        derivePubkeyAndAddress env root (pfx ++ toString idx) code =
          .error e →
        checkSchemes env k i w ph root idx ((code, pfx) :: ss) =
          ((checkSchemes env k i w ph root idx ss).1,
           .deriveErr i code (pfx ++ toString idx) e ::
             (checkSchemes env k i w ph root idx ss).2)) := by
  have hpc : processCandidate env template k i w =
      (none, [.checksumValid i (candidatePhrase template k w),
              .rootErr i msg]) := by
    simp [processCandidate, hval, hroot]
  refine ⟨hpc, ?_, ?_⟩
  · rw [searchFrom_cons_none env template k i w rest (by rw [hpc])]
  · intro ph root idx code pfx ss e hd_
    simp [checkSchemes, hd_]

theorem C5_derivation_failure_skipped_witness :
    processCandidate envRootFail [some "x", none] 1 0 "a" =
      (none, [.checksumValid 0 (candidatePhrase [some "x", none] 1 "a"),
              .rootErr 0 "bad entropy"]) ∧
    (searchFrom envRootFail [some "x", none] 1 0 ("a" :: ["b"])).1 =
      (searchFrom envRootFail [some "x", none] 1 (0 + 1) ["b"]).1 ∧
    (∀ (ph : String) (root : Unit) (idx : Nat) (code pfx : String)
        (ss : List (String × String)) (e : DeriveErr),
        derivePubkeyAndAddress envRootFail root (pfx ++ toString idx) code =
          .error e →
        checkSchemes envRootFail 1 0 "a" ph root idx ((code, pfx) :: ss) =
          ((checkSchemes envRootFail 1 0 "a" ph root idx ss).1,
           .deriveErr 0 code (pfx ++ toString idx) e ::
             (checkSchemes envRootFail 1 0 "a" ph root idx ss).2)) :=
  C5_derivation_failure_skipped envRootFail [some "x", none] 1 0 "a" ["b"]
    "bad entropy" rfl rfl

/-- C7: given a base template with exactly one hole and a 2048-entry
wordlist, the candidate generator yields exactly 2048 candidate phrases,
the i-th being the base phrase with the i-th wordlist entry substituted
into the hole position, in wordlist order; every substituted candidate is
a complete 12-slot phrase with no remaining hole. -/
theorem C7_candidate_generation (template : List (Option String))
    (wordlist : List String)
    (h12 : template.length = 12) (h1 : nullCount template = 1)
    (h2048 : wordlist.length = 2048) :
    (candidatePhrases template (missingIndexOf template) wordlist).length =
      2048 ∧
    (∀ i, i < 2048 →
      (candidatePhrases template (missingIndexOf template) wordlist).getD i ""
        = candidatePhrase template (missingIndexOf template)
            (wordlist.getD i "")) ∧
    (∀ w, (substituteWord template (missingIndexOf template) w).length = 12 ∧
      nullCount (substituteWord template (missingIndexOf template) w) = 0) := by
  refine ⟨by simp [candidatePhrases, h2048], ?_, ?_⟩
  · intro i hi
    have hi' : i < wordlist.length := by omega
    simp [candidatePhrases, List.getD_eq_getElem?_getD, List.getElem?_map,
      List.getElem?_eq_getElem hi']
  · intro w
    exact ⟨by simp [substituteWord, h12], nullCount_set_missing w template h1⟩

/-- An eleven-fixed-word template with its single hole in the last slot. -/
def template12 : List (Option String) :=
  [some "word1", some "word2", some "word3", some "word4", some "word5",
   some "word6", some "word7", some "word8", some "word9", some "word10",
   some "word11", none]

/-- A concrete 2048-entry wordlist. -/
def wordlist2048 : List String := (List.range 2048).map (fun n => toString n)

theorem C7_candidate_generation_witness :
    (candidatePhrases template12 (missingIndexOf template12)
        wordlist2048).length = 2048 ∧
    (∀ i, i < 2048 →
      (candidatePhrases template12 (missingIndexOf template12)
          wordlist2048).getD i ""
        = candidatePhrase template12 (missingIndexOf template12)
            (wordlist2048.getD i "")) ∧
    (∀ w, (substituteWord template12 (missingIndexOf template12) w).length =
        12 ∧
      nullCount (substituteWord template12 (missingIndexOf template12) w) =
        0) :=
  C7_candidate_generation template12 wordlist2048 rfl (by decide)
    (by simp [wordlist2048])

/-- C2 counterexample: invoked with the out-of-set scheme tag "BOGUS", the
encoder throws the unsupported-scheme error, but the controller's catch
logs it and the loop continues with the next scheme and finishes the
candidate normally — the error does not halt the run. -/
theorem C2_unsupported_not_fatal_cex :
    checkSchemes envZero 0 0 "w" "p" () 0
        [("BOGUS", "m/x/"), ("P2PKH", "m/44/")] =
      (none,
       [.deriveErr 0 "BOGUS" "m/x/0" (.unsupported "BOGUS"),
        .derivedAddr 0 "P2PKH" "m/44/0" "A1",
        .balChecked 0 "A1" (.gotBalance 0),
        .balZero 0 "A1" 0]) := by
  decide

/-- C2 (amended): the encoder does fail with the unsupported-scheme error
for any tag outside the fixed set, but the search controller's per-scheme
catch treats that error exactly like a derivation failure — it logs the
error and continues with the remaining schemes rather than halting — and
the only condition that halts the run with the failure signal is the
configuration error (not exactly one hole). -/
theorem C2_unsupported_scheme_amended (env : Env Seed Root Child Pubkey)
    (root : Root) (child : Child) (path tag : String)
    (hok : env.derivePath root path = .ok child)
    (h1 : tag ≠ "P2PKH") (h2 : tag ≠ "P2SH-P2WPKH") (h3 : tag ≠ "P2WPKH") :
    derivePubkeyAndAddress env root path tag = .error (.unsupported tag) ∧
    (∀ (k i idx : Nat) (w ph pfx : String) (ss : List (String × String))
        (e : DeriveErr),
        derivePubkeyAndAddress env root (pfx ++ toString idx) tag =
          .error e →
        checkSchemes env k i w ph root idx ((tag, pfx) :: ss) =
          ((checkSchemes env k i w ph root idx ss).1,
           .deriveErr i tag (pfx ++ toString idx) e ::
             (checkSchemes env k i w ph root idx ss).2)) ∧
    (∀ (template : List (Option String)) (wordlist : List String),
        exitCode (run template wordlist env) = 1 ↔
          nullCount template ≠ 1) := by
  refine ⟨by simp [derivePubkeyAndAddress, hok, h1, h2, h3], ?_, ?_⟩
  · intro k i idx w ph pfx ss e hd_
    simp [checkSchemes, hd_]
  · intro template wordlist
    by_cases h : nullCount template ≠ 1 <;> simp [run, h, exitCode]

theorem C2_unsupported_scheme_amended_witness :
    derivePubkeyAndAddress envZero () "m/x/0" "BOGUS" =
      .error (.unsupported "BOGUS") ∧
    (∀ (k i idx : Nat) (w ph pfx : String) (ss : List (String × String))
        (e : DeriveErr),
        derivePubkeyAndAddress envZero () (pfx ++ toString idx) "BOGUS" =
          .error e →
        checkSchemes envZero k i w ph () idx (("BOGUS", pfx) :: ss) =
          ((checkSchemes envZero k i w ph () idx ss).1,
           .deriveErr i "BOGUS" (pfx ++ toString idx) e ::
             (checkSchemes envZero k i w ph () idx ss).2)) ∧
    (∀ (template : List (Option String)) (wordlist : List String),
        exitCode (run template wordlist envZero) = 1 ↔
          nullCount template ≠ 1) :=
  C2_unsupported_scheme_amended envZero () () "m/x/0" "BOGUS" rfl
    (by decide) (by decide) (by decide)

/-- C1: scheme checks of every candidate are attempted in the fixed order
Legacy (P2PKH), WrappedSegwit (P2SH-P2WPKH), NativeSegwit (P2WPKH) — the
attempted tags always form a prefix of that list — and the first candidate
that reports a positive balance terminates the whole search: the run ends
in Success carrying that candidate's wordlist index, the whole trace holds
only events at indices up to it, and in particular a candidate at a higher
index j that would also report positive balance is never evaluated. -/
theorem C1_fixed_order_first_match (env : Env Seed Root Child Pubkey)
    (template : List (Option String)) (wordlist : List String)
    (i j : Nat) (f : Found)
    (hk : nullCount template = 1)
    (hij : i < j) (hj : j < wordlist.length)
    (hfi : (processCandidate env template (missingIndexOf template) i
        (wordlist.getD i "")).1 = some f)
    (hfj : (processCandidate env template (missingIndexOf template) j
        (wordlist.getD j "")).1.isSome = true)
    (hfirst : ∀ m, m < i →
      (processCandidate env template (missingIndexOf template) m
        (wordlist.getD m "")).1 = none) :
    (∀ (i' : Nat) (w' : String), ∃ n,
      attemptCodes (processCandidate env template (missingIndexOf template)
          i' w').2 = (addressTypes.map Prod.fst).take n) ∧
    run template wordlist env =
      .finished (.found f)
        ((searchFrom env template (missingIndexOf template) 0
            (wordlist.take i)).2 ++
         (processCandidate env template (missingIndexOf template) i
            (wordlist.getD i "")).2) ∧
    f.wordIndex = i ∧
    (∀ e ∈ progTrace (run template wordlist env), e.idx ≤ i) ∧
    (∀ e ∈ progTrace (run template wordlist env), e.idx ≠ j) := by
  have hi : i < wordlist.length := Nat.lt_trans hij hj
  have hlen_take : (wordlist.take i).length = i := by
    rw [List.length_take]; omega
  have htake : ∀ m w', (wordlist.take i)[m]? = some w' →
      (processCandidate env template (missingIndexOf template) (0 + m)
        w').1 = none := by
    intro m w' hm
    have hmlen : m < (wordlist.take i).length :=
      (List.getElem?_eq_some.mp hm).1
    have hmi : m < i := by omega
    have hw' : wordlist[m]? = some w' := by
      rw [← hm, List.getElem?_take, if_pos hmi]
    have hwd : wordlist.getD m "" = w' := by
      rw [List.getD_eq_getElem?_getD, hw']; rfl
    rw [Nat.zero_add, ← hwd]
    exact hfirst m hmi
  have hex : (searchFrom env template (missingIndexOf template) 0
      (wordlist.take i)).1 = .exhausted :=
    searchFrom_all_none env template _ (wordlist.take i) 0 htake
  have hdrop : wordlist.drop i =
      wordlist.getD i "" :: wordlist.drop (i + 1) := by
    rw [List.drop_eq_getElem_cons hi]
    congr 1
    rw [List.getD_eq_getElem?_getD, List.getElem?_eq_getElem hi]
    rfl
  have hsplit : wordlist = wordlist.take i ++ wordlist.drop i :=
    (List.take_append_drop i wordlist).symm
  have happ := searchFrom_append_exhausted env template
    (missingIndexOf template) (wordlist.take i) 0 (wordlist.drop i) hex
  have hfound_drop : searchFrom env template (missingIndexOf template) i
      (wordlist.drop i) =
        (.found f,
         (processCandidate env template (missingIndexOf template) i
            (wordlist.getD i "")).2) := by
    rw [hdrop]
    exact searchFrom_cons_found env template _ i _ _ f hfi
  have hz : (0 : Nat) + (wordlist.take i).length = i := by
    rw [hlen_take]; omega
  have hrun0 : searchFrom env template (missingIndexOf template) 0 wordlist =
      (.found f,
       (searchFrom env template (missingIndexOf template) 0
          (wordlist.take i)).2 ++
        (processCandidate env template (missingIndexOf template) i
          (wordlist.getD i "")).2) := by
    conv_lhs => rw [hsplit]
    rw [happ, hz, hfound_drop]
  have hne : ¬ nullCount template ≠ 1 := by omega
  have hrun : run template wordlist env =
      .finished (.found f)
        ((searchFrom env template (missingIndexOf template) 0
            (wordlist.take i)).2 ++
         (processCandidate env template (missingIndexOf template) i
            (wordlist.getD i "")).2) := by
    simp only [run, if_neg hne]
    rw [hrun0]
  have hle : ∀ e ∈ progTrace (run template wordlist env), e.idx ≤ i := by
    intro e he
    rw [hrun] at he
    simp only [progTrace] at he
    rcases List.mem_append.mp he with he | he
    · obtain ⟨m, w', hm, hidx, _⟩ :=
        mem_searchFrom_trace env template _ (wordlist.take i) 0 e he
      have hmlen : m < (wordlist.take i).length :=
        (List.getElem?_eq_some.mp hm).1
      omega
    · have := mem_processCandidate_idx env template _ i _ e he
      omega
  exact ⟨fun i' w' => attemptCodes_processCandidate env template _ i' w',
    hrun, (processCandidate_found_shape env template _ i _ f hfi).2.1,
    hle, fun e he => by have := hle e he; omega⟩

/-- The `Found` value produced by the witness environment at index 0. -/
def foundW : Found :=
  { missingIndex := 1, wordIndex := 0, word := "a", phrase := "x a",
    code := "P2PKH", path := "m/44\x27/0\x27/0\x27/0/0", address := "A1",
    balance := 7 }

theorem C1_fixed_order_first_match_witness :
    (∀ (i' : Nat) (w' : String), ∃ n,
      attemptCodes (processCandidate envPos [some "x", none]
          (missingIndexOf [some "x", none]) i' w').2 =
        (addressTypes.map Prod.fst).take n) ∧
    run [some "x", none] ["a", "b"] envPos =
      .finished (.found foundW)
        ((searchFrom envPos [some "x", none]
            (missingIndexOf [some "x", none]) 0 (["a", "b"].take 0)).2 ++
         (processCandidate envPos [some "x", none]
            (missingIndexOf [some "x", none]) 0 (["a", "b"].getD 0 "")).2) ∧
    foundW.wordIndex = 0 ∧
    (∀ e ∈ progTrace (run [some "x", none] ["a", "b"] envPos),
      e.idx ≤ 0) ∧
    (∀ e ∈ progTrace (run [some "x", none] ["a", "b"] envPos),
      e.idx ≠ 1) :=
  C1_fixed_order_first_match envPos [some "x", none] ["a", "b"] 0 1 foundW
    (by decide) (by decide) (by decide) rfl rfl
    (fun m hm => absurd hm (Nat.not_lt_zero m))

end BruteForce
